import Mathlib

/-!
Verification of the NOVA-PRO realtime media pipeline against its
natural-language specification.

The development shallowly embeds the relevant parts of the TypeScript
source:

* the voice-activity-detection (VAD) frame handler installed by
  `startRecording` in `src/hooks/useAudio.ts`,
* the serialized playback scheduling chain built by `queueAudio`,
* the screen change detector of `src/hooks/useScreen.ts`,
* the tool-call batch handler of the `onmessage` callback in
  `src/hooks/useGemini.ts`,
* the reconnect / disconnect state machine of `src/hooks/useGemini.ts`
  (`handleReconnect`, `sendRealtimeInput`, `disconnect`).

Machine floating-point numbers are modelled as rationals; external
asynchronous primitives (the audio decoder, the promise chain, timers)
are modelled by explicit state passing and operation sequences.
-/

namespace NovaPro

/-! ## Constants (src/utils/constants.ts, `CONFIG`) -/

def VAD_THRESHOLD : ℚ := 5 / 1000

def VAD_HYSTERESIS_FRAMES : ℤ := 40

def MAX_BACKOFF_MS : ℚ := 10000

/-! ## Capture pipeline / VAD
(src/hooks/useAudio.ts, the `workletNode.port.onmessage` handler
installed by `startRecording`, lines 98-121) -/

/-- Strided sum of squares: the handler loops
`for (i = 0; i < inputData.length; i += 4) sum += inputData[i]*inputData[i]`,
so every 4th sample is squared and accumulated. -/
def stridedSumSq : List ℚ → ℚ
  | [] => 0
  | [a] => a * a
  | [a, _] => a * a
  | [a, _, _] => a * a
  | a :: _ :: _ :: _ :: rest => a * a + stridedSumSq rest

/-- The handler computes `rms = sqrt(sum / (len / 4))` and tests
`rms > CONFIG.VAD_THRESHOLD`.  Both sides are nonnegative, so the test
is equivalent to `sum / (len / 4) > VAD_THRESHOLD ^ 2`, i.e. to
`4 * sum > VAD_THRESHOLD ^ 2 * len` (square roots avoided to stay in ℚ;
for the empty frame the source compares via NaN, which is false, matching
`0 > 0`). -/
def rmsHigh (frame : List ℚ) : Bool :=
  decide (4 * stridedSumSq frame > VAD_THRESHOLD ^ 2 * (frame.length : ℚ))

/-- VAD state: `vadActive` is `vadActiveRef.current`, `isSpeaking` is the
last value reported through `onVADStateChange` (the consumer's state,
initially `false`; frames that report nothing leave it unchanged). -/
structure VADState where
  vadActive : ℤ
  isSpeaking : Bool
deriving Repr, DecidableEq

def initVAD : VADState := ⟨0, false⟩

/-- One frame of the handler (useAudio.ts lines 107-114):
high RMS arms the counter to `VAD_HYSTERESIS_FRAMES` and reports `true`;
otherwise a positive counter is decremented with no report; otherwise
`false` is reported. -/
def vadStep (s : VADState) (frame : List ℚ) : VADState :=
  if rmsHigh frame then
    { vadActive := VAD_HYSTERESIS_FRAMES, isSpeaking := true }
  else if s.vadActive > 0 then
    { vadActive := s.vadActive - 1, isSpeaking := s.isSpeaking }
  else
    { vadActive := s.vadActive, isSpeaking := false }

def vadRun (s : VADState) (frames : List (List ℚ)) : VADState :=
  frames.foldl vadStep s

/-- A concrete frame whose strided RMS exceeds the threshold. -/
def highFrame : List ℚ := [1]

/-- A concrete silent frame. -/
def lowFrame : List ℚ := [0]

lemma rmsHigh_highFrame : rmsHigh highFrame = true := by
  simp only [rmsHigh, highFrame, stridedSumSq, VAD_THRESHOLD, decide_eq_true_eq]
  norm_num

lemma rmsHigh_lowFrame : rmsHigh lowFrame = false := by
  simp only [rmsHigh, lowFrame, stridedSumSq, VAD_THRESHOLD, decide_eq_false_iff_not]
  norm_num

lemma rmsHigh_replicate_low (n : ℕ) :
    ∀ g ∈ List.replicate n lowFrame, rmsHigh g = false := by
  intro g hg
  rw [List.eq_of_mem_replicate hg]
  exact rmsHigh_lowFrame

/-! ### VAD helper lemmas -/

lemma vadRun_low_zero_false (fs : List (List ℚ))
    (hlow : ∀ g ∈ fs, rmsHigh g = false) (b : Bool) :
    vadRun ⟨0, b⟩ fs = ⟨0, if fs.isEmpty then b else false⟩ := by
  induction fs generalizing b with
  | nil => simp [vadRun]
  | cons g rest ih =>
    have hg : rmsHigh g = false := hlow g (by simp)
    have hrest : ∀ g ∈ rest, rmsHigh g = false := fun g hgm => hlow g (by simp [hgm])
    have hstep : vadStep ⟨0, b⟩ g = ⟨0, false⟩ := by
      simp [vadStep, hg]
    show vadRun (vadStep ⟨0, b⟩ g) rest = _
    rw [hstep, ih hrest false]
    cases rest with
    | nil => simp
    | cons x xs => simp

lemma vadRun_low_speaking (fs : List (List ℚ))
    (hlow : ∀ g ∈ fs, rmsHigh g = false) :
    ∀ k : ℤ, 0 ≤ k →
      (vadRun ⟨k, true⟩ fs).isSpeaking = decide ((fs.length : ℤ) ≤ k) := by
  induction fs with
  | nil =>
    intro k hk
    have hz : decide ((List.length ([] : List (List ℚ)) : ℤ) ≤ k) = true := by
      apply decide_eq_true
      simpa using hk
    rw [hz]
    rfl
  | cons g rest ih =>
    intro k hk
    have hg : rmsHigh g = false := hlow g (by simp)
    have hrest : ∀ g ∈ rest, rmsHigh g = false := fun g hgm => hlow g (by simp [hgm])
    show (vadRun (vadStep ⟨k, true⟩ g) rest).isSpeaking = _
    by_cases hkpos : k > 0
    · have hstep : vadStep ⟨k, true⟩ g = ⟨k - 1, true⟩ := by
        simp [vadStep, hg, hkpos]
      rw [hstep, ih hrest (k - 1) (by omega)]
      rw [decide_eq_decide]
      simp only [List.length_cons]
      push_cast
      constructor <;> intro h <;> omega
    · have hk0 : k = 0 := by omega
      subst hk0
      have hstep : vadStep ⟨0, true⟩ g = ⟨0, false⟩ := by
        simp [vadStep, hg]
      rw [hstep, vadRun_low_zero_false rest hrest false]
      have hlen : ¬ (((g :: rest).length : ℤ) ≤ 0) := by
        simp only [List.length_cons]
        push_cast
        omega
      have hsp : (VADState.mk 0 (if rest.isEmpty then false else false)).isSpeaking = false := by
        cases rest <;> simp
      rw [hsp, decide_eq_false hlen]

lemma vadRun_cons (s : VADState) (f : List ℚ) (fs : List (List ℚ)) :
    vadRun s (f :: fs) = vadRun (vadStep s f) fs := rfl

lemma vadRun_low_state (fs : List (List ℚ))
    (hlow : ∀ g ∈ fs, rmsHigh g = false) :
    ∀ k : ℤ, (fs.length : ℤ) ≤ k →
      vadRun ⟨k, true⟩ fs = ⟨k - fs.length, true⟩ := by
  induction fs with
  | nil =>
    intro k hk
    show (⟨k, true⟩ : VADState) = _
    simp
  | cons g rest ih =>
    intro k hk
    have hg : rmsHigh g = false := hlow g (by simp)
    have hrest : ∀ g ∈ rest, rmsHigh g = false := fun g hgm => hlow g (by simp [hgm])
    have hklen : ((g :: rest).length : ℤ) = (rest.length : ℤ) + 1 := by
      simp only [List.length_cons]
      push_cast
      ring
    have hkpos : k > 0 := by
      rw [hklen] at hk
      have : (0:ℤ) ≤ (rest.length : ℤ) := by positivity
      omega
    have hstep : vadStep ⟨k, true⟩ g = ⟨k - 1, true⟩ := by
      simp [vadStep, hg, hkpos]
    show vadRun (vadStep ⟨k, true⟩ g) rest = _
    rw [hstep, ih hrest (k - 1) (by rw [hklen] at hk; omega), hklen]
    congr 1
    ring

/-- The VAD invariant preserved by every frame. -/
def VADInv (s : VADState) : Prop :=
  0 ≤ s.vadActive ∧ (s.vadActive > 0 → s.isSpeaking = true)

lemma vadStep_inv (s : VADState) (f : List ℚ) (h : VADInv s) :
    VADInv (vadStep s f) := by
  rcases h with ⟨hnn, hsp⟩
  unfold vadStep
  by_cases hf : rmsHigh f
  · simp only [hf, if_true]
    exact ⟨by norm_num [VAD_HYSTERESIS_FRAMES], fun _ => rfl⟩
  · simp only [hf, Bool.false_eq_true, if_false]
    by_cases hpos : s.vadActive > 0
    · simp only [if_pos hpos]
      exact ⟨show (0:ℤ) ≤ s.vadActive - 1 by omega, fun _ => hsp hpos⟩
    · simp only [if_neg hpos]
      exact ⟨hnn, fun hc => absurd hc hpos⟩

lemma vadRun_inv (s : VADState) (frames : List (List ℚ)) (h : VADInv s) :
    VADInv (vadRun s frames) := by
  induction frames generalizing s with
  | nil => exact h
  | cons f rest ih => exact ih (vadStep s f) (vadStep_inv s f h)

/-- C1: the reported `isSpeaking` signal becomes true exactly on a frame
whose strided RMS exceeds `VAD_THRESHOLD` (a low-RMS frame never turns it
from false to true, a high-RMS frame always reports true), and after a
high-RMS frame followed only by low-RMS frames it remains true for exactly
`VAD_HYSTERESIS_FRAMES` (40) such frames and is reported false from the
next low-RMS frame on. -/
theorem vad_dynamics (s : VADState) (f : List ℚ) (fs : List (List ℚ)) :
    (rmsHigh f = false → (vadStep s f).isSpeaking = true → s.isSpeaking = true) ∧
    (rmsHigh f = true → (vadStep s f).isSpeaking = true) ∧
    (rmsHigh f = true → (∀ g ∈ fs, rmsHigh g = false) →
      (vadRun (vadStep s f) fs).isSpeaking
        = decide ((fs.length : ℤ) ≤ VAD_HYSTERESIS_FRAMES)) := by
  refine ⟨?_, ?_, ?_⟩
  · intro hf hsp
    unfold vadStep at hsp
    rw [hf] at hsp
    by_cases hpos : s.vadActive > 0
    · simpa [hpos] using hsp
    · simp [hpos] at hsp
  · intro hf
    unfold vadStep
    rw [hf]
    rfl
  · intro hf hlow
    have hstep : vadStep s f = ⟨VAD_HYSTERESIS_FRAMES, true⟩ := by
      unfold vadStep
      rw [hf]
      rfl
    rw [hstep]
    exact vadRun_low_speaking fs hlow VAD_HYSTERESIS_FRAMES (by norm_num [VAD_HYSTERESIS_FRAMES])

/-- C1 witness: starting from the initial state, one loud frame followed by
40 silent frames leaves the reported signal true, and followed by 41 silent
frames leaves it false. -/
theorem vad_dynamics_witness :
    (vadRun (vadStep initVAD highFrame) (List.replicate 40 lowFrame)).isSpeaking = true ∧
    (vadRun (vadStep initVAD highFrame) (List.replicate 41 lowFrame)).isSpeaking = false := by
  constructor
  · have h := (vad_dynamics initVAD highFrame (List.replicate 40 lowFrame)).2.2
      rmsHigh_highFrame (rmsHigh_replicate_low 40)
    rw [h]
    simp [VAD_HYSTERESIS_FRAMES]
  · have h := (vad_dynamics initVAD highFrame (List.replicate 41 lowFrame)).2.2
      rmsHigh_highFrame (rmsHigh_replicate_low 41)
    rw [h]
    simp [VAD_HYSTERESIS_FRAMES]

/-- C2 counterexample: after one loud frame and then exactly 40 silent
frames the counter has just reached 0 while the reported `isSpeaking` is
still true, so "`isSpeaking` is true iff `activeHysteresis > 0`" fails at
this concrete input. -/
theorem vad_iff_counterexample :
    ¬ (((vadRun initVAD (highFrame :: List.replicate 40 lowFrame)).isSpeaking = true) ↔
       (vadRun initVAD (highFrame :: List.replicate 40 lowFrame)).vadActive > 0) := by
  have hstep : vadStep initVAD highFrame = ⟨VAD_HYSTERESIS_FRAMES, true⟩ := by
    simp [vadStep, rmsHigh_highFrame]
  have hrun : vadRun initVAD (highFrame :: List.replicate 40 lowFrame) = ⟨0, true⟩ := by
    rw [vadRun_cons, hstep, vadRun_low_state (List.replicate 40 lowFrame)
      (rmsHigh_replicate_low 40) VAD_HYSTERESIS_FRAMES (by norm_num [VAD_HYSTERESIS_FRAMES])]
    norm_num [VAD_HYSTERESIS_FRAMES]
  rw [hrun]
  intro h
  exact absurd (h.mp rfl) (lt_irrefl 0)

/-- C2 amended: `isSpeaking` is true whenever `activeHysteresis > 0` (the
converse fails only on the frame that decrements the counter from 1 to 0,
where `isSpeaking` stays true until the next low-RMS frame); the counter is
reset to `VAD_HYSTERESIS_FRAMES` on any high-RMS frame, decremented with
the reported signal unchanged on a low-RMS frame while positive, and is
never negative. -/
theorem vad_invariant_amended (frames : List (List ℚ)) (s : VADState) (f : List ℚ) :
    (0 ≤ (vadRun initVAD frames).vadActive) ∧
    ((vadRun initVAD frames).vadActive > 0 → (vadRun initVAD frames).isSpeaking = true) ∧
    (rmsHigh f = true → vadStep s f = ⟨VAD_HYSTERESIS_FRAMES, true⟩) ∧
    (rmsHigh f = false → s.vadActive > 0 →
      vadStep s f = ⟨s.vadActive - 1, s.isSpeaking⟩) ∧
    (rmsHigh f = false → ¬ s.vadActive > 0 → vadStep s f = ⟨s.vadActive, false⟩) := by
  have hinv : VADInv (vadRun initVAD frames) :=
    vadRun_inv initVAD frames ⟨le_refl 0, fun hc => absurd hc (lt_irrefl 0)⟩
  refine ⟨hinv.1, hinv.2, ?_, ?_, ?_⟩
  · intro hf
    unfold vadStep
    rw [hf]
    rfl
  · intro hf hpos
    unfold vadStep
    rw [hf]
    simp [hpos]
  · intro hf hpos
    unfold vadStep
    rw [hf]
    simp [hpos]

/-- C2 amended witness at a concrete trace and a concrete loud frame. -/
theorem vad_invariant_amended_witness :
    0 ≤ (vadRun initVAD [highFrame, lowFrame]).vadActive ∧
    vadStep initVAD highFrame = ⟨VAD_HYSTERESIS_FRAMES, true⟩ := by
  have h := vad_invariant_amended [highFrame, lowFrame] initVAD highFrame
  exact ⟨h.1, h.2.2.1 rmsHigh_highFrame⟩

/-! ## Playback scheduler
(src/hooks/useAudio.ts, `queueAudio` lines 133-160)

`queueAudio` appends a decode-then-schedule job for its payload to the
single serialized promise chain `audioProcessingChain`; the chain runs the
jobs one at a time in the order they were attached.  The external decoder
`decodeAudioData` either yields a buffer (modelled by its duration) or
rejects (the rejection is caught and logged, the chain continues).  We
model the chain state explicitly and let an arbitrary interleaving of
`enqueue` operations and chain steps drive it. -/

/-- An audio payload handed to `queueAudio`: `ident` identifies the
base64 chunk, `decoded` is the outcome of the external
`decodeAudioData` call (`some duration`, or `none` when decoding
rejects). -/
structure AudioPayload where
  ident : Nat
  decoded : Option ℚ
deriving Repr, DecidableEq

/-- One `source.start(start)` call with the buffer it plays. -/
structure ScheduledSource where
  payload : Nat
  startTime : ℚ
  duration : ℚ
deriving Repr, DecidableEq

/-- State of the serialized chain: `pending` are the jobs attached but not
yet run (in attachment order), `consumed` the jobs already run (in run
order), `started` the `source.start` calls issued (in call order),
`nextStartTime` mirrors `nextStartTimeRef.current`. -/
structure PlaybackState where
  pending : List AudioPayload
  consumed : List AudioPayload
  started : List ScheduledSource
  nextStartTime : ℚ
deriving Repr, DecidableEq

def initPlayback : PlaybackState := ⟨[], [], [], 0⟩

/-- `queueAudio` (line 136): attach one more job to the end of the chain. -/
def queueAudio (p : AudioPayload) (st : PlaybackState) : PlaybackState :=
  { st with pending := st.pending ++ [p] }

/-- Start-time choice (lines 145-147): `let start = nextStartTimeRef.current;
if (start < now) start = now + 0.02;`. -/
def scheduleStart (now nextFree : ℚ) : ℚ :=
  if nextFree < now then now + 1/50 else nextFree

/-- Run the job at the head of the chain, at output-clock time `now`
(lines 136-159): decode; on success create a source, `source.start` it at
the chosen time and advance `nextStartTimeRef` by the buffer duration; a
decode rejection is caught and the chain continues. -/
def runHead (now : ℚ) (st : PlaybackState) : PlaybackState :=
  match st.pending with
  | [] => st
  | p :: rest =>
    match p.decoded with
    | none => { st with pending := rest, consumed := st.consumed ++ [p] }
    | some dur =>
      let start := scheduleStart now st.nextStartTime
      { pending := rest
        consumed := st.consumed ++ [p]
        started := st.started ++ [⟨p.ident, start, dur⟩]
        nextStartTime := start + dur }

/-- Interleaved operations on the playback scheduler: a `queueAudio` call,
or the serialized chain running its next job at clock time `now`. -/
inductive PlaybackOp where
  | enqueue (p : AudioPayload)
  | runNext (now : ℚ)
deriving Repr, DecidableEq

def playbackStep (st : PlaybackState) (op : PlaybackOp) : PlaybackState :=
  match op with
  | .enqueue p => queueAudio p st
  | .runNext now => runHead now st

def playbackRun (ops : List PlaybackOp) : PlaybackState :=
  ops.foldl playbackStep initPlayback

/-- The payloads enqueued by an operation sequence, in call order. -/
def enqueuedOf (ops : List PlaybackOp) : List AudioPayload :=
  ops.filterMap fun op =>
    match op with
    | .enqueue p => some p
    | .runNext _ => none

/-- Does a payload decode successfully? -/
def decodeOk (p : AudioPayload) : Bool := p.decoded.isSome

/-! ### Playback helper lemmas -/

lemma playbackStep_order (st : PlaybackState) (op : PlaybackOp) :
    (playbackStep st op).consumed ++ (playbackStep st op).pending
      = st.consumed ++ st.pending ++ (enqueuedOf [op]) := by
  cases op with
  | enqueue p => simp [playbackStep, queueAudio, enqueuedOf]
  | runNext now =>
    cases hp : st.pending with
    | nil => simp [playbackStep, runHead, hp, enqueuedOf]
    | cons p rest =>
      cases hd : p.decoded with
      | none => simp [playbackStep, runHead, hp, hd, enqueuedOf]
      | some dur => simp [playbackStep, runHead, hp, hd, enqueuedOf]

lemma enqueuedOf_cons (op : PlaybackOp) (ops : List PlaybackOp) :
    enqueuedOf (op :: ops) = enqueuedOf [op] ++ enqueuedOf ops := by
  cases op <;> simp [enqueuedOf]

lemma playbackRun_from_order (ops : List PlaybackOp) :
    ∀ st : PlaybackState,
      (ops.foldl playbackStep st).consumed ++ (ops.foldl playbackStep st).pending
        = st.consumed ++ st.pending ++ enqueuedOf ops := by
  induction ops with
  | nil => intro st; simp [enqueuedOf]
  | cons op rest ih =>
    intro st
    rw [List.foldl_cons, ih (playbackStep st op), playbackStep_order st op]
    rw [show enqueuedOf (op :: rest) = enqueuedOf [op] ++ enqueuedOf rest from
      enqueuedOf_cons op rest]
    simp

/-- The serialization invariant: the `source.start` calls made so far are
exactly the decode-successful consumed payloads, in consumption order. -/
def StartedMatches (st : PlaybackState) : Prop :=
  st.started.map (fun s => s.payload)
    = (st.consumed.filter decodeOk).map (fun p => p.ident)

lemma playbackStep_startedMatches (st : PlaybackState) (op : PlaybackOp)
    (h : StartedMatches st) : StartedMatches (playbackStep st op) := by
  cases op with
  | enqueue p => exact h
  | runNext now =>
    cases hp : st.pending with
    | nil => simpa [playbackStep, runHead, hp] using h
    | cons p rest =>
      cases hd : p.decoded with
      | none =>
        unfold StartedMatches at h ⊢
        simp [playbackStep, runHead, hp, hd, List.filter_append, decodeOk, h]
      | some dur =>
        unfold StartedMatches at h ⊢
        simp [playbackStep, runHead, hp, hd, List.filter_append, decodeOk, h]

lemma playbackRun_startedMatches (ops : List PlaybackOp) :
    ∀ st : PlaybackState, StartedMatches st →
      StartedMatches (ops.foldl playbackStep st) := by
  induction ops with
  | nil => intro st h; exact h
  | cons op rest ih =>
    intro st h
    rw [List.foldl_cons]
    exact ih (playbackStep st op) (playbackStep_startedMatches st op h)

/-- C3: the single serialized promise chain never reorders enqueued steps:
for any interleaving of `queueAudio` calls and chain steps that drains the
chain, if `P1` was enqueued before `P2` (with `P2` possibly submitted
before `P1`'s decode resolved, i.e. before any chain step ran), then the
ordered list of `source.start` calls contains `P1`'s start strictly before
`P2`'s. -/
theorem queueAudio_ordering (ops : List PlaybackOp)
    (pre mid post : List AudioPayload) (P1 P2 : AudioPayload)
    (henq : enqueuedOf ops = pre ++ P1 :: (mid ++ P2 :: post))
    (hdrained : (playbackRun ops).pending = [])
    (h1 : decodeOk P1 = true) (h2 : decodeOk P2 = true) :
    (playbackRun ops).started.map (fun s => s.payload)
      = ((pre.filter decodeOk).map (fun p => p.ident))
        ++ P1.ident ::
          (((mid.filter decodeOk).map (fun p => p.ident))
            ++ P2.ident :: ((post.filter decodeOk).map (fun p => p.ident))) := by
  have horder := playbackRun_from_order ops initPlayback
  have hinit : StartedMatches initPlayback := by
    unfold StartedMatches initPlayback
    simp
  have hmatch := playbackRun_startedMatches ops initPlayback hinit
  unfold playbackRun at hdrained ⊢
  rw [hdrained, List.append_nil] at horder
  have hco : (List.foldl playbackStep initPlayback ops).consumed = enqueuedOf ops := by
    simpa [initPlayback] using horder
  unfold StartedMatches at hmatch
  rw [hmatch, hco, henq]
  simp [List.filter_append, h1, h2]

/-- C3 witness: both payloads enqueued before any chain step runs
(`P2` submitted while `P1` is still decoding), then the chain drains;
`P1`'s start call comes first. -/
theorem queueAudio_ordering_witness :
    (playbackRun [.enqueue ⟨1, some 1⟩, .enqueue ⟨2, some (1/2)⟩,
        .runNext 0, .runNext 0]).started.map (fun s => s.payload) = [1, 2] := by
  have h := queueAudio_ordering
    [.enqueue ⟨1, some 1⟩, .enqueue ⟨2, some (1/2)⟩, .runNext 0, .runNext 0]
    [] [] [] ⟨1, some 1⟩ ⟨2, some (1/2)⟩ (by rfl) (by rfl) (by rfl) (by rfl)
  simpa using h

/-! ### Playback non-overlap (C4) -/

/-- Consecutively scheduled sources never overlap: each start time is at
least the previous start time plus the previous buffer's duration. -/
def Chained : List ScheduledSource → Prop
  | [] => True
  | [_] => True
  | a :: b :: t => a.startTime + a.duration ≤ b.startTime ∧ Chained (b :: t)

/-- `nextFree` bounds the end of the last scheduled source. -/
def TailBound (l : List ScheduledSource) (nextFree : ℚ) : Prop :=
  match l.getLast? with
  | none => True
  | some a => a.startTime + a.duration ≤ nextFree

lemma chained_append_one (l : List ScheduledSource) (s : ScheduledSource) :
    ∀ nf : ℚ, Chained l → TailBound l nf → nf ≤ s.startTime →
      Chained (l ++ [s]) ∧ TailBound (l ++ [s]) (s.startTime + s.duration) := by
  induction l with
  | nil =>
    intro nf _ _ _
    exact ⟨trivial, by simp [TailBound]⟩
  | cons a rest ih =>
    intro nf hch htb hle
    cases rest with
    | nil =>
      refine ⟨⟨?_, trivial⟩, ?_⟩
      · have ha : a.startTime + a.duration ≤ nf := by
          simpa [TailBound] using htb
        exact le_trans ha hle
      · simp [TailBound]
    | cons b t =>
      have hch' : Chained (b :: t) := hch.2
      have htb' : TailBound (b :: t) nf := by
        unfold TailBound at htb ⊢
        simpa using htb
      have hrec := ih nf hch' htb' hle
      refine ⟨⟨hch.1, hrec.1⟩, ?_⟩
      unfold TailBound
      have : ((a :: b :: t) ++ [s]).getLast? = ((b :: t) ++ [s]).getLast? := by
        simp
      rw [this]
      have := hrec.2
      unfold TailBound at this
      exact this

lemma scheduleStart_ge (now nf : ℚ) : nf ≤ scheduleStart now nf := by
  unfold scheduleStart
  by_cases h : nf < now
  · rw [if_pos h]
    linarith
  · rw [if_neg h]

/-- The non-overlap invariant carried by every playback operation. -/
def ChainInv (st : PlaybackState) : Prop :=
  Chained st.started ∧ TailBound st.started st.nextStartTime

lemma playbackStep_chainInv (st : PlaybackState) (op : PlaybackOp)
    (h : ChainInv st) : ChainInv (playbackStep st op) := by
  cases op with
  | enqueue p => exact h
  | runNext now =>
    cases hp : st.pending with
    | nil => simpa [playbackStep, runHead, hp] using h
    | cons p rest =>
      cases hd : p.decoded with
      | none =>
        unfold ChainInv at h ⊢
        simpa [playbackStep, runHead, hp, hd] using h
      | some dur =>
        unfold ChainInv at h ⊢
        simp only [playbackStep, runHead, hp, hd]
        exact chained_append_one st.started ⟨p.ident, scheduleStart now st.nextStartTime, dur⟩
          st.nextStartTime h.1 h.2 (scheduleStart_ge now st.nextStartTime)

lemma playbackRun_chainInv (ops : List PlaybackOp) :
    ∀ st : PlaybackState, ChainInv st → ChainInv (ops.foldl playbackStep st) := by
  induction ops with
  | nil => intro st h; exact h
  | cons op rest ih =>
    intro st h
    rw [List.foldl_cons]
    exact ih (playbackStep st op) (playbackStep_chainInv st op h)

/-- C4: after any interleaving of `queueAudio` calls and chain steps, any
two consecutively scheduled sources satisfy
`second.startTime ≥ first.startTime + first.duration`; moreover the start
time is `nextFreeTime` when that time has not yet passed
(`now ≤ nextFree`), and `now + 0.02` otherwise, and a successful schedule
advances `nextFreeTime` by exactly the scheduled buffer's duration. -/
theorem playback_non_overlap (ops : List PlaybackOp) (now nf dur : ℚ)
    (st : PlaybackState) (p : AudioPayload) (rest : List AudioPayload)
    (hp : st.pending = p :: rest) (hd : p.decoded = some dur) :
    Chained (playbackRun ops).started ∧
    (now ≤ nf → scheduleStart now nf = nf) ∧
    (nf < now → scheduleStart now nf = now + 1/50) ∧
    (runHead now st).nextStartTime = scheduleStart now st.nextStartTime + dur := by
  refine ⟨?_, ?_, ?_, ?_⟩
  · exact (playbackRun_chainInv ops initPlayback (by
      unfold ChainInv initPlayback
      exact ⟨trivial, trivial⟩)).1
  · intro h
    unfold scheduleStart
    rw [if_neg (not_lt.mpr h)]
  · intro h
    unfold scheduleStart
    rw [if_pos h]
  · simp [runHead, hp, hd]

/-- C4 witness: a drained two-payload run is chained, and the scheduling
equations hold at concrete clock values. -/
theorem playback_non_overlap_witness :
    Chained (playbackRun [.enqueue ⟨1, some 1⟩, .enqueue ⟨2, some (1/2)⟩,
        .runNext 0, .runNext 0]).started ∧
    scheduleStart 0 (3 : ℚ) = 3 ∧
    scheduleStart 3 (0 : ℚ) = 3 + 1/50 := by
  have h := playback_non_overlap
    [.enqueue ⟨1, some 1⟩, .enqueue ⟨2, some (1/2)⟩, .runNext 0, .runNext 0]
    0 3 1 ⟨[⟨1, some 1⟩], [], [], 0⟩ ⟨1, some 1⟩ [] (by rfl) (by rfl)
  refine ⟨h.1, h.2.1 (by norm_num), ?_⟩
  have h' := playback_non_overlap
    [.enqueue ⟨1, some 1⟩, .enqueue ⟨2, some (1/2)⟩, .runNext 0, .runNext 0]
    3 0 1 ⟨[⟨1, some 1⟩], [], [], 0⟩ ⟨1, some 1⟩ [] (by rfl) (by rfl)
  exact h'.2.2.1 (by norm_num)

/-! ## Screen sampler change detection
(src/hooks/useScreen.ts, the sampler tick, lines 100-134)

A tick with a ready video frame reads the RGBA pixel buffer
(`currentData`, one byte per channel) and decides `hasChange`:
no previous sample, or heartbeat (`now - lastFrameTime > 3000` ms), or
the strided diff count (`sampleStep = 32`, per-channel threshold 15)
exceeds 1% of the sampled positions (`(totalPixels / sampleStep) * 0.01`).
On change the frame is encoded and sent, and the current sample becomes
the new baseline with its timestamp. -/

/-- Walk two pixel buffers in lockstep; `skip = 0` means the current
position is sampled, otherwise `skip` more positions are passed over
before the next sample. -/
def stridedDiffCountAux : ℕ → List ℤ → List ℤ → ℕ
  | _, [], _ => 0
  | _, _ :: _, [] => 0
  | 0, a :: as, b :: bs => (if 15 < |a - b| then 1 else 0) + stridedDiffCountAux 31 as bs
  | n + 1, _ :: as, _ :: bs => stridedDiffCountAux n as bs

/-- Strided diff count: positions `i = 0, 32, 64, ...` of the two buffers,
counting those with `|cur[i] - prev[i]| > 15`.  The loop walks both
buffers in lockstep (they have equal length while the canvas size is
unchanged; `previousFrameDataRef` is cleared on a resize). -/
def stridedDiffCount (cur prev : List ℤ) : ℕ :=
  stridedDiffCountAux 0 cur prev

/-- Screen sampler state: `prev` is `previousFrameDataRef.current`,
`lastTime` is `lastFrameTimeRef.current` (ms). -/
structure ScreenState where
  prev : Option (List ℤ)
  lastTime : ℤ
deriving Repr, DecidableEq

def initScreen : ScreenState := ⟨none, 0⟩

/-- The `hasChange` decision of one tick (lines 100-127).  The ratio test
`diffCount > (totalPixels / sampleStep) * 0.01` is
`diffCount > totalPixels / 3200`, i.e. `3200 * diffCount > totalPixels`
over the integers. -/
def hasChange (st : ScreenState) (now : ℤ) (cur : List ℤ) : Bool :=
  match st.prev with
  | none => true
  | some p =>
    if 3000 < now - st.lastTime then true
    else decide ((cur.length : ℤ) < 3200 * stridedDiffCount cur p)

/-- One sampler tick (lines 100-134): judge the frame, and on change send
it and snapshot it as the new baseline with its timestamp. -/
def sampleTick (st : ScreenState) (now : ℤ) (cur : List ℤ) : Bool × ScreenState :=
  if hasChange st now cur then (true, ⟨some cur, now⟩)
  else (false, st)

lemma stridedDiffCountAux_self (cur : List ℤ) :
    ∀ n : ℕ, stridedDiffCountAux n cur cur = 0 := by
  induction cur with
  | nil => intro n; cases n <;> rfl
  | cons a as ih =>
    intro n
    cases n with
    | zero =>
      show (if 15 < |a - a| then 1 else 0) + stridedDiffCountAux 31 as as = 0
      rw [ih 31]
      simp
    | succ m => exact ih m

lemma stridedDiffCount_self (cur : List ℤ) : stridedDiffCount cur cur = 0 :=
  stridedDiffCountAux_self cur 0

lemma sampleTick_fst (st : ScreenState) (now : ℤ) (cur : List ℤ) :
    (sampleTick st now cur).1 = hasChange st now cur := by
  unfold sampleTick
  by_cases h : hasChange st now cur <;> simp [h]

/-- C5: a sampler tick with a ready frame judges it changed — and then
sends it and snapshots it as the new baseline with its timestamp — iff
no previous sample exists, or more than 3 s elapsed since the last send,
or the strided diff count against the previous sample exceeds 1% of the
sampled positions (the source computes the bound as
`totalPixels / sampleStep * 0.01 = length / 3200`); an unchanged verdict
leaves the state untouched, and two identical frames within the heartbeat
window produce exactly one send. -/
theorem screen_change_detection (st : ScreenState) (now : ℤ) (cur : List ℤ)
    (now1 now2 t0 : ℤ) (frame : List ℤ) :
    ((sampleTick st now cur).1 = true ↔
      (st.prev = none ∨ 3000 < now - st.lastTime ∨
        ∃ p, st.prev = some p ∧ (cur.length : ℤ) < 3200 * stridedDiffCount cur p)) ∧
    ((sampleTick st now cur).1 = true →
      (sampleTick st now cur).2 = ⟨some cur, now⟩) ∧
    ((sampleTick st now cur).1 = false → (sampleTick st now cur).2 = st) ∧
    (now2 - now1 ≤ 3000 →
      (sampleTick ⟨none, t0⟩ now1 frame).1 = true ∧
      (sampleTick (sampleTick ⟨none, t0⟩ now1 frame).2 now2 frame).1 = false) := by
  refine ⟨?_, ?_, ?_, ?_⟩
  · rw [sampleTick_fst]
    cases hp : st.prev with
    | none => simp [hasChange, hp]
    | some p =>
      unfold hasChange
      rw [hp]
      by_cases hb : 3000 < now - st.lastTime
      · simp [hb]
      · simp [hb, decide_eq_true_eq]
  · intro h
    unfold sampleTick at h ⊢
    by_cases hc : hasChange st now cur
    · simp [hc]
    · simp [hc] at h
  · intro h
    unfold sampleTick at h ⊢
    by_cases hc : hasChange st now cur
    · simp [hc] at h
    · simp [hc]
  · intro hwin
    have h1 : (sampleTick ⟨none, t0⟩ now1 frame) = (true, ⟨some frame, now1⟩) := by
      unfold sampleTick
      rw [if_pos (by simp [hasChange])]
    refine ⟨by rw [h1], ?_⟩
    rw [h1, sampleTick_fst]
    unfold hasChange
    simp only
    rw [if_neg (by omega)]
    rw [stridedDiffCount_self frame]
    simp only [Nat.cast_zero, mul_zero, decide_eq_false_iff_not, not_lt]
    positivity

/-- C5 witness: a first 4-pixel frame is always sent; the identical frame
one second later is suppressed; a frame whose sampled byte moved by more
than the threshold within the window is sent again. -/
theorem screen_change_detection_witness :
    (sampleTick initScreen 1000 [10, 10, 10, 10]).1 = true ∧
    (sampleTick ⟨some [10, 10, 10, 10], 1000⟩ 2000 [10, 10, 10, 10]).1 = false ∧
    (sampleTick ⟨some [10, 10, 10, 10], 1000⟩ 2000 [40, 10, 10, 10]).1 = true := by
  have h := screen_change_detection initScreen 1000 [10, 10, 10, 10] 1000 2000 0
    [10, 10, 10, 10]
  have hsent : (sampleTick initScreen 1000 [10, 10, 10, 10]).1 = true :=
    (h.1).mpr (Or.inl rfl)
  have hupd := h.2.1 hsent
  have hsupp := (h.2.2.2 (by norm_num)).2
  simp only [initScreen] at hupd
  rw [hupd] at hsupp
  refine ⟨hsent, hsupp, ?_⟩
  have h3 := screen_change_detection ⟨some [10, 10, 10, 10], 1000⟩ 2000
    [40, 10, 10, 10] 0 0 0 []
  refine (h3.1).mpr (Or.inr (Or.inr ⟨[10, 10, 10, 10], rfl, ?_⟩))
  show ((([40, 10, 10, 10] : List ℤ).length : ℤ)
    < 3200 * stridedDiffCount [40, 10, 10, 10] [10, 10, 10, 10])
  norm_num [stridedDiffCount, stridedDiffCountAux]

/-! ## Tool-call batch handling
(src/hooks/useGemini.ts, the `msg.toolCall` branch of `onmessage`,
lines 156-210)

For each function call of the batch the loop body runs in a `try`: a
`render_code` call destructures its arguments and pushes a success
response; a `create_file` call throws `"Incomplete arguments"` when
`content` or `filename` is missing or empty (JS falsiness) and otherwise
pushes a success response; a thrown exception is caught per call and an
error response with the call's id is pushed instead.  A call whose name
matches neither branch falls through the `if`/`else if` without pushing
anything.  After the loop the collected responses are sent once, if any. -/

/-- Arguments of a tool call (`fc.args`); `none` models a JS `undefined`
args object, whose destructuring throws. -/
structure ToolArgs where
  filename : Option String
  content : Option String
  code : Option String
  language : Option String
deriving Repr, DecidableEq

structure FunctionCall where
  ident : String
  name : String
  args : Option ToolArgs
deriving Repr, DecidableEq

inductive ToolOutcome where
  | result (msg : String)
  | error (msg : String)
deriving Repr, DecidableEq

structure ToolResponse where
  ident : String
  name : String
  response : ToolOutcome
deriving Repr, DecidableEq

/-- JS falsiness of an optional string field: `undefined` or `""`. -/
def falsyStr : Option String → Bool
  | none => true
  | some s => s = ""

/-- The loop body for one call: `some response` when a response is pushed
(success, or per-call caught error), `none` when the call's name matches
no branch and nothing is pushed. -/
def runToolCall (fc : FunctionCall) : Option ToolResponse :=
  if fc.name = "render_code" then
    some (match fc.args with
      | none => ⟨fc.ident, fc.name, .error "Cannot destructure arguments"⟩
      | some _ => ⟨fc.ident, fc.name, .result "Code rendered successfully to user."⟩)
  else if fc.name = "create_file" then
    some (match fc.args with
      | none => ⟨fc.ident, fc.name, .error "Cannot destructure arguments"⟩
      | some a =>
        if falsyStr a.content || falsyStr a.filename then
          ⟨fc.ident, fc.name, .error "Incomplete arguments"⟩
        else ⟨fc.ident, fc.name, .result "File created successfully."⟩)
  else none

/-- The whole `msg.toolCall` branch: the responses collected by the loop
in order, and the number of `sendToolResponse` acknowledgements
(one when at least one response was collected, none otherwise). -/
def processToolCallBatch (calls : List FunctionCall) : List ToolResponse × ℕ :=
  let responses := calls.filterMap runToolCall
  (responses, if responses.isEmpty then 0 else 1)

/-- Is a response marked as an error? -/
def isErrorResponse (r : ToolResponse) : Bool :=
  match r.response with
  | .error _ => true
  | .result _ => false

/-- C6 counterexample: a batch consisting of one call whose name is not a
declared tool (`"web_search"`) receives no response at all — the claim
that every call of every batch gets exactly one correlated response fails
at this input. -/
theorem tool_batch_counterexample :
    ¬ (((processToolCallBatch
          [⟨"call-1", "web_search", some ⟨none, none, none, none⟩⟩]).1.countP
        (fun r => r.ident = "call-1")) = 1) := by
  decide

/-- C6 amended: in every inbound batch, each function call whose name is
one of the declared tools (`render_code`, `create_file`) receives exactly
one correlated response carrying its original id — a success result, or a
structured error when its handler throws — a throwing handler does not
abort the remaining calls, and all collected responses are sent in a
single acknowledgement; calls with unrecognized names receive no
response. -/
theorem tool_batch_amended (calls : List FunctionCall)
    (hnames : ∀ c ∈ calls, c.name = "render_code" ∨ c.name = "create_file") :
    (processToolCallBatch calls).1.map (fun r => r.ident)
        = calls.map (fun c => c.ident) ∧
    (processToolCallBatch calls).1.map (fun r => r.name)
        = calls.map (fun c => c.name) ∧
    (calls ≠ [] → (processToolCallBatch calls).2 = 1) := by
  have hresp : calls.filterMap runToolCall
      = calls.map (fun c => (runToolCall c).getD ⟨c.ident, c.name, .error ""⟩) := by
    induction calls with
    | nil => rfl
    | cons c rest ih =>
      have hc := hnames c (by simp)
      have hrest : ∀ x ∈ rest, x.name = "render_code" ∨ x.name = "create_file" :=
        fun x hx => hnames x (by simp [hx])
      have hsome : (runToolCall c).isSome = true := by
        unfold runToolCall
        rcases hc with h | h
        · rw [if_pos h]
          rfl
        · rw [if_neg (by rw [h]; decide), if_pos h]
          rfl
      rcases Option.isSome_iff_exists.mp hsome with ⟨r, hr⟩
      rw [List.filterMap_cons, hr, List.map_cons, ih hrest, hr]
      rfl
  have hid : ∀ c : FunctionCall,
      ((runToolCall c).getD ⟨c.ident, c.name, .error ""⟩).ident = c.ident := by
    intro c
    unfold runToolCall
    by_cases h1 : c.name = "render_code"
    · rw [if_pos h1]
      cases c.args <;> rfl
    · rw [if_neg h1]
      by_cases h2 : c.name = "create_file"
      · rw [if_pos h2]
        cases hargs : c.args with
        | none => rfl
        | some a =>
          by_cases hf : falsyStr a.content || falsyStr a.filename
          · simp [hf]
          · simp [hf]
      · rw [if_neg h2]
        rfl
  have hnm : ∀ c : FunctionCall,
      ((runToolCall c).getD ⟨c.ident, c.name, .error ""⟩).name = c.name := by
    intro c
    unfold runToolCall
    by_cases h1 : c.name = "render_code"
    · rw [if_pos h1]
      cases c.args <;> rfl
    · rw [if_neg h1]
      by_cases h2 : c.name = "create_file"
      · rw [if_pos h2]
        cases hargs : c.args with
        | none => rfl
        | some a =>
          by_cases hf : falsyStr a.content || falsyStr a.filename
          · simp [hf]
          · simp [hf]
      · rw [if_neg h2]
        rfl
  refine ⟨?_, ?_, ?_⟩
  · show (calls.filterMap runToolCall).map (fun r => r.ident) = _
    rw [hresp, List.map_map]
    exact List.map_congr_left (fun c _ => hid c)
  · show (calls.filterMap runToolCall).map (fun r => r.name) = _
    rw [hresp, List.map_map]
    exact List.map_congr_left (fun c _ => hnm c)
  · intro hne
    show (if (calls.filterMap runToolCall).isEmpty then 0 else 1) = 1
    rw [if_neg ?_]
    rw [hresp]
    cases calls with
    | nil => exact absurd rfl hne
    | cons c rest => simp

/-- C6 amended witness: the spec's scenario — a batch of two recognized
calls where the first (a `create_file` missing its content) throws and the
second (`render_code`) succeeds — yields exactly two responses correlated
by the original ids, one error and one success, sent in one
acknowledgement. -/
theorem tool_batch_amended_witness :
    (processToolCallBatch
        [⟨"id-a", "create_file", some ⟨some "f.txt", none, none, none⟩⟩,
         ⟨"id-b", "render_code", some ⟨none, none, some "x", some "ts"⟩⟩]).1.map
      (fun r => r.ident) = ["id-a", "id-b"] ∧
    (processToolCallBatch
        [⟨"id-a", "create_file", some ⟨some "f.txt", none, none, none⟩⟩,
         ⟨"id-b", "render_code", some ⟨none, none, some "x", some "ts"⟩⟩]).2 = 1 ∧
    (processToolCallBatch
        [⟨"id-a", "create_file", some ⟨some "f.txt", none, none, none⟩⟩,
         ⟨"id-b", "render_code", some ⟨none, none, some "x", some "ts"⟩⟩]).1.map
      isErrorResponse = [true, false] := by
  have h := tool_batch_amended
    [⟨"id-a", "create_file", some ⟨some "f.txt", none, none, none⟩⟩,
     ⟨"id-b", "render_code", some ⟨none, none, some "x", some "ts"⟩⟩]
    (by decide)
  exact ⟨h.1, h.2.2 (by decide), by decide⟩

/-! ## Session protocol controller
(src/hooks/useGemini.ts: `handleReconnect`, `sendRealtimeInput`,
`disconnect`, the reconnect timer callback)

The controller state collects the refs of the hook; timers and the random
jitter are passed explicitly.  `setTimeout` is modelled by the returned
`scheduledDelay` (the timer callback is `reconnectTimerFire` below), and
the actual `connect` call by a boolean "connect invoked" output. -/

inductive ConnectionStatus where
  | DISCONNECTED
  | CONNECTING
  | CONNECTED
  | ERROR
deriving Repr, DecidableEq

structure SessionState where
  status : ConnectionStatus
  reconnectCount : ℕ
  isExplicitlyTerminated : Bool
  isReconnecting : Bool
  hasSession : Bool
  messages : List String
deriving Repr, DecidableEq

/-- The system message appended when the attempt cap is exceeded. -/
def reconnectFailureMessage : String :=
  "Erro: Conexão instável. Verifique sua internet ou API Key."

/-- Backoff delay (lines 382-384):
`baseDelay = 1000 * 1.5 ** attempt`, `delay = min(baseDelay + jitter,
MAX_BACKOFF_MS)` with `jitter = Math.random() * 500`. -/
def reconnectDelay (attempt : ℕ) (jitter : ℚ) : ℚ :=
  min (1000 * (3/2 : ℚ) ^ attempt + jitter) MAX_BACKOFF_MS

/-- Result of a `handleReconnect` call: the new state, and the delay of
the scheduled retry timer, when one was scheduled. -/
structure ReconnectResult where
  state : SessionState
  scheduledDelay : Option ℚ
deriving Repr, DecidableEq

/-- `handleReconnect` (lines 369-395): suppressed when explicitly
terminated (unless forced) or already reconnecting; above the attempt cap
it sets the Error status, appends a user-visible message and returns
without scheduling; otherwise it marks reconnecting, bumps the attempt
counter, sets Connecting and schedules the delayed retry. -/
def handleReconnect (s : SessionState) (force : Bool) (jitter : ℚ) :
    ReconnectResult :=
  if s.isExplicitlyTerminated && !force then ⟨s, none⟩
  else if s.isReconnecting then ⟨s, none⟩
  else if 5 < s.reconnectCount then
    ⟨{ s with
        status := .ERROR
        messages := s.messages ++ [reconnectFailureMessage] }, none⟩
  else
    ⟨{ s with
        isReconnecting := true
        reconnectCount := s.reconnectCount + 1
        status := .CONNECTING },
      some (reconnectDelay s.reconnectCount jitter)⟩

/-- The reconnect timer callback (lines 391-394): clear the reconnecting
flag, then call `connect` only when not explicitly terminated (`connect`
immediately sets Connecting).  The boolean reports whether `connect` was
invoked. -/
def reconnectTimerFire (s : SessionState) : SessionState × Bool :=
  let s1 := { s with isReconnecting := false }
  if s1.isExplicitlyTerminated then (s1, false)
  else ({ s1 with status := .CONNECTING }, true)

/-- `disconnect` (lines 569-584): set the explicit-termination flag,
report Disconnected, and close/null the session.  (It also stops audio and
screen capture, outside this model.) -/
def disconnect (s : SessionState) : SessionState :=
  { s with
    isExplicitlyTerminated := true
    status := .DISCONNECTED
    hasSession := false }

/-- Result of `sendRealtimeInput`: new state, whether the chunk was
forwarded to the session, and the retry timer scheduled when the send
threw and a forced reconnect was triggered. -/
structure SendResult where
  state : SessionState
  forwarded : Bool
  scheduledDelay : Option ℚ
deriving Repr, DecidableEq

/-- `sendRealtimeInput` (lines 397-406): only acts when a session exists
and the explicit-termination flag is clear; a throwing send triggers
`handleReconnect(true)`. -/
def sendRealtimeInput (s : SessionState) (sendFails : Bool) (jitter : ℚ) :
    SendResult :=
  if s.hasSession && !s.isExplicitlyTerminated then
    if sendFails then
      let r := handleReconnect s true jitter
      ⟨r.state, false, r.scheduledDelay⟩
    else ⟨s, true, none⟩
  else ⟨s, false, none⟩

/-- Control-thread events that can reach the controller after it exists:
an outbound send (possibly throwing), the session's onclose/onerror
callbacks (which call `handleReconnect` only when not explicitly
terminated), a pending reconnect timer firing, a `disconnect()` call, and
a fresh user-initiated `connect()` (which clears the termination flag). -/
inductive SessionEv where
  | sendEv (fails : Bool) (jitter : ℚ)
  | closeOrError (jitter : ℚ)
  | timerFire
  | disconnectCall
  | connectFresh
deriving Repr, DecidableEq

/-- One event step; the boolean reports whether this event invoked
`connect`. -/
def sessionStep (s : SessionState) (ev : SessionEv) : SessionState × Bool :=
  match ev with
  | .sendEv fails j => ((sendRealtimeInput s fails j).state, false)
  | .closeOrError j =>
    (if s.isExplicitlyTerminated then s else (handleReconnect s false j).state,
      false)
  | .timerFire => reconnectTimerFire s
  | .disconnectCall => (disconnect s, false)
  | .connectFresh =>
    ({ s with
        isExplicitlyTerminated := false
        reconnectCount := 0
        status := .CONNECTING }, true)

/-- Run a sequence of events; the boolean reports whether any event
invoked `connect`. -/
def sessionRun : SessionState → List SessionEv → SessionState × Bool
  | s, [] => (s, false)
  | s, ev :: rest =>
    let p := sessionStep s ev
    let q := sessionRun p.1 rest
    (q.1, p.2 || q.2)

lemma sessionStep_terminated (s : SessionState) (ev : SessionEv)
    (hterm : s.isExplicitlyTerminated = true)
    (hst : s.status = ConnectionStatus.DISCONNECTED)
    (hev : ev ≠ SessionEv.connectFresh) :
    (sessionStep s ev).2 = false ∧
    (sessionStep s ev).1.isExplicitlyTerminated = true ∧
    (sessionStep s ev).1.status = ConnectionStatus.DISCONNECTED := by
  cases ev with
  | sendEv fails j =>
    have hsend : sendRealtimeInput s fails j = ⟨s, false, none⟩ := by
      unfold sendRealtimeInput
      rw [hterm]
      simp
    simp [sessionStep, hsend, hterm, hst]
  | closeOrError j =>
    simp [sessionStep, hterm, hst]
  | timerFire =>
    unfold sessionStep reconnectTimerFire
    rw [if_pos (by simpa using hterm)]
    exact ⟨rfl, hterm, hst⟩
  | disconnectCall =>
    simp [sessionStep, disconnect]
  | connectFresh => exact absurd rfl hev

/-- C9: once `disconnect()` has set the explicit-termination flag, any
sequence of later controller events that contains no fresh user `connect`
— including the pending reconnect timer finally firing — never invokes
`connect`, keeps the flag set and leaves the state Disconnected. -/
theorem disconnect_suppresses_reconnect (s : SessionState)
    (evs : List SessionEv) (hno : ∀ e ∈ evs, e ≠ SessionEv.connectFresh) :
    (sessionRun (disconnect s) evs).2 = false ∧
    (sessionRun (disconnect s) evs).1.isExplicitlyTerminated = true ∧
    (sessionRun (disconnect s) evs).1.status = ConnectionStatus.DISCONNECTED := by
  have hgen : ∀ (evs : List SessionEv) (t : SessionState),
      (∀ e ∈ evs, e ≠ SessionEv.connectFresh) →
      t.isExplicitlyTerminated = true →
      t.status = ConnectionStatus.DISCONNECTED →
      (sessionRun t evs).2 = false ∧
      (sessionRun t evs).1.isExplicitlyTerminated = true ∧
      (sessionRun t evs).1.status = ConnectionStatus.DISCONNECTED := by
    intro evs
    induction evs with
    | nil => intro t _ hterm hst; exact ⟨rfl, hterm, hst⟩
    | cons ev rest ih =>
      intro t hno hterm hst
      have hstep := sessionStep_terminated t ev hterm hst (hno ev (by simp))
      have hrest := ih (sessionStep t ev).1
        (fun e he => hno e (by simp [he])) hstep.2.1 hstep.2.2
      refine ⟨?_, hrest.2.1, hrest.2.2⟩
      show ((sessionStep t ev).2 || (sessionRun (sessionStep t ev).1 rest).2) = false
      rw [hstep.1, hrest.1]
      rfl
  exact hgen evs (disconnect s) hno (by simp [disconnect]) (by simp [disconnect])

/-- C9 witness: after a disconnect in a connected state, a pending timer
firing followed by a capture-callback send triggers no connect and leaves
the state Disconnected. -/
theorem disconnect_suppresses_reconnect_witness :
    (sessionRun (disconnect ⟨.CONNECTED, 2, false, true, true, []⟩)
        [.timerFire, .sendEv true 0]).2 = false ∧
    (sessionRun (disconnect ⟨.CONNECTED, 2, false, true, true, []⟩)
        [.timerFire, .sendEv true 0]).1.status
      = ConnectionStatus.DISCONNECTED := by
  have h := disconnect_suppresses_reconnect ⟨.CONNECTED, 2, false, true, true, []⟩
    [.timerFire, .sendEv true 0] (by intro e he; fin_cases he <;> decide)
  exact ⟨h.1, h.2.2⟩

/-- C7: a reconnect triggered (not suppressed by the explicit-termination
or in-progress guards) while the attempt counter is already above the
maximum attempt count (5) sets the connection state to Error, appends the
user-visible error message to the message list, and schedules no retry
timer — so no later `connect` call can arise from this path. -/
theorem reconnect_cap_terminal (s : SessionState) (force : Bool) (jitter : ℚ)
    (hguard : s.isExplicitlyTerminated = false ∨ force = true)
    (hrec : s.isReconnecting = false)
    (hcap : 5 < s.reconnectCount) :
    (handleReconnect s force jitter).state.status = ConnectionStatus.ERROR ∧
    (handleReconnect s force jitter).state.messages
      = s.messages ++ [reconnectFailureMessage] ∧
    (handleReconnect s force jitter).scheduledDelay = none := by
  have hg : (s.isExplicitlyTerminated && !force) = false := by
    rcases hguard with h | h <;> simp [h]
  unfold handleReconnect
  rw [hg]
  simp only [Bool.false_eq_true, if_false, hrec, if_pos hcap]
  refine ⟨?_, ?_, ?_⟩ <;> trivial

/-- C7 witness: a seventh reconnect trigger in a clean state with counter
6 is terminal. -/
theorem reconnect_cap_terminal_witness :
    (handleReconnect ⟨.CONNECTING, 6, false, false, false, []⟩ false 0).state.status
      = ConnectionStatus.ERROR ∧
    (handleReconnect ⟨.CONNECTING, 6, false, false, false, []⟩ false 0).scheduledDelay
      = none := by
  have h := reconnect_cap_terminal ⟨.CONNECTING, 6, false, false, false, []⟩
    false 0 (Or.inl rfl) rfl (by norm_num)
  exact ⟨h.1, h.2.2⟩

/-- C8: for every attempt count N the delay scheduled by `handleReconnect`
equals `min(1000 * 1.5 ^ N + jitter, MAX_BACKOFF_MS)` for the drawn
jitter in `[0, 500)`, and ignoring jitter the base delay
`min(1000 * 1.5 ^ N, MAX_BACKOFF_MS)` is non-decreasing in N. -/
theorem reconnect_backoff (s : SessionState) (jitter : ℚ)
    (_hj0 : 0 ≤ jitter) (_hj1 : jitter < 500)
    (hterm : s.isExplicitlyTerminated = false)
    (hrec : s.isReconnecting = false)
    (hcap : s.reconnectCount ≤ 5) :
    (handleReconnect s false jitter).scheduledDelay
      = some (min (1000 * (3/2 : ℚ) ^ s.reconnectCount + jitter) MAX_BACKOFF_MS) ∧
    (∀ n m : ℕ, n ≤ m →
      min (1000 * (3/2 : ℚ) ^ n) MAX_BACKOFF_MS
        ≤ min (1000 * (3/2 : ℚ) ^ m) MAX_BACKOFF_MS) := by
  constructor
  · unfold handleReconnect
    rw [hterm]
    simp only [Bool.false_and, Bool.false_eq_true, if_false, hrec,
      if_neg (by omega : ¬ 5 < s.reconnectCount)]
    rfl
  · intro n m hnm
    refine min_le_min ?_ le_rfl
    have hpow : (3/2 : ℚ) ^ n ≤ (3/2 : ℚ) ^ m :=
      pow_le_pow_right₀ (by norm_num) hnm
    nlinarith

/-- C8 witness: at attempt 2 with jitter 100 the scheduled delay is
`1000 * 1.5^2 + 100 = 2350` ms, below the cap; monotonicity applied at
1 ≤ 3. -/
theorem reconnect_backoff_witness :
    (handleReconnect ⟨.CONNECTING, 2, false, false, false, []⟩ false 100).scheduledDelay
      = some 2350 ∧
    min (1000 * (3/2 : ℚ) ^ 1) MAX_BACKOFF_MS
      ≤ min (1000 * (3/2 : ℚ) ^ 3) MAX_BACKOFF_MS := by
  have h := reconnect_backoff ⟨.CONNECTING, 2, false, false, false, []⟩ 100
    (by norm_num) (by norm_num) rfl rfl (by norm_num)
  constructor
  · rw [h.1]
    norm_num [MAX_BACKOFF_MS]
  · exact h.2 1 3 (by norm_num)

/-- C10: once the explicit-termination flag is set, every
`sendRealtimeInput` call is a no-op: the state is unchanged, nothing is
forwarded to the remote session, and no reconnect timer is scheduled —
even when the capture callback or screen sampler still produces chunks
(modelled by the call happening at all) and even when the underlying send
would have thrown. -/
theorem send_after_disconnect_noop (s : SessionState) (sendFails : Bool)
    (jitter : ℚ) (hterm : s.isExplicitlyTerminated = true) :
    sendRealtimeInput s sendFails jitter = ⟨s, false, none⟩ := by
  unfold sendRealtimeInput
  rw [hterm]
  simp

/-- C10 witness: a throwing send after disconnect in a state that still
holds a session reference does nothing. -/
theorem send_after_disconnect_noop_witness :
    sendRealtimeInput ⟨.DISCONNECTED, 1, true, false, true, []⟩ true 0
      = ⟨⟨.DISCONNECTED, 1, true, false, true, []⟩, false, none⟩ :=
  send_after_disconnect_noop ⟨.DISCONNECTED, 1, true, false, true, []⟩ true 0 rfl

end NovaPro
